import Mathlib

/-!
Verification of the specgraph repository's natural-language specification
against a shallow embedding of its Python source.

Strings are modelled as Lean `String` / `List Char`.  The Python regular
expressions used by `src/specgraph/utils/file_manager.py` are embedded as
explicit recursive functions on `List Char`; each definition's doc comment
names the source construct it translates.
-/

set_option autoImplicit false
set_option maxRecDepth 8192

namespace SpecGraph

/-- Model of the character class matched by Python's `\s` on `str` (and the
set stripped by `str.strip()`): ASCII whitespace, the C1 separators, and the
Unicode space characters.  Matches CPython's Unicode whitespace table. -/
def pyIsSpace (c : Char) : Bool :=
  let n := c.toNat
  n == 9 || n == 10 || n == 11 || n == 12 || n == 13 || n == 32 ||
  (28 ≤ n && n ≤ 31) || n == 133 || n == 160 || n == 0x1680 ||
  (0x2000 ≤ n && n ≤ 0x200a) || n == 0x2028 || n == 0x2029 ||
  n == 0x202f || n == 0x205f || n == 0x3000

/-- Model of `str.lower` restricted to ASCII: maps `A`-`Z` to `a`-`z` and
leaves every other character unchanged.  (CPython additionally lowercases
non-ASCII cased letters; every claim checked here is insensitive to that
difference because such characters and their lowercase images are removed
by the `[^a-z0-9-]` filter of `slugify`.) -/
def pyLower (c : Char) : Char :=
  if 65 ≤ c.toNat && c.toNat ≤ 90 then Char.ofNat (c.toNat + 32) else c

/-- The character class `[a-z0-9-]` from `slugify` in `file_manager.py`. -/
def isSlugChar (c : Char) : Bool :=
  let n := c.toNat
  (97 ≤ n && n ≤ 122) || (48 ≤ n && n ≤ 57) || n == 45

/-- The character class `[\s_]` from `slugify`. -/
def isSpaceUnd (c : Char) : Bool :=
  pyIsSpace c || c.toNat == 95

/-- Embedding of `re.sub(r"[\s_]+", "-", text)`: every maximal run of
whitespace/underscore characters is replaced by a single hyphen. -/
def replaceSpaceRuns : List Char → List Char
  | [] => []
  | [c] => if isSpaceUnd c then ['-'] else [c]
  | c :: d :: cs =>
    if isSpaceUnd c && isSpaceUnd d then replaceSpaceRuns (d :: cs)
    else (if isSpaceUnd c then '-' else c) :: replaceSpaceRuns (d :: cs)

/-- Embedding of `re.sub(r"-+", "-", text)`: every maximal run of hyphens is
collapsed to a single hyphen (keeping the last hyphen of each run, which is
the same character). -/
def collapseHyphens : List Char → List Char
  | [] => []
  | [c] => [c]
  | c :: d :: cs =>
    if c == '-' && d == '-' then collapseHyphens (d :: cs)
    else c :: collapseHyphens (d :: cs)

/-- Remove the trailing run of characters satisfying `p`; together with
`List.dropWhile` this embeds Python's `str.strip`. -/
def dropTrailing (p : Char → Bool) : List Char → List Char
  | [] => []
  | c :: cs =>
    let r := dropTrailing p cs
    if r.isEmpty && p c then [] else c :: r

/-- Embedding of Python `text.strip(ch)` for a one-character class `p`. -/
def pyStripBy (p : Char → Bool) (l : List Char) : List Char :=
  dropTrailing p (l.dropWhile p)

/-- Embedding of Python `text.strip()` (no arguments: whitespace). -/
def pyStrip (l : List Char) : List Char :=
  pyStripBy pyIsSpace l

/-- The slug before the final `text[:50]` truncation: lowercase, replace
whitespace/underscore runs by hyphens, remove characters outside
`[a-z0-9-]`, collapse repeated hyphens, strip leading/trailing hyphens.
Direct translation of `slugify` in `file_manager.py` up to its last line. -/
def slugCore (l : List Char) : List Char :=
  pyStripBy (fun c => c == '-')
    (collapseHyphens ((replaceSpaceRuns (l.map pyLower)).filter isSlugChar))

/-- Embedding of `slugify` from `file_manager.py` on character lists:
`slugCore` followed by the `text[:50]` truncation. -/
def slugifyL (l : List Char) : List Char :=
  (slugCore l).take 50

/-- Embedding of `slugify` from `file_manager.py`. -/
def slugify (text : String) : String :=
  String.mk (slugifyL text.data)

/-- Decidable check that a character list contains no two adjacent hyphens. -/
def noTwoDashes : List Char → Bool
  | c :: d :: cs => !(c == '-' && d == '-') && noTwoDashes (d :: cs)
  | _ => true

end SpecGraph

namespace SpecGraph

/-! ## Artifact store and `file_manager.py` -/

/-- ASCII decimal digit, the class `\d` of `re.match(r"^(\d+)-", name)`.
(Python's `\d` additionally matches non-ASCII Unicode decimal digits; the
directory names this system generates are ASCII, and no claim depends on
non-ASCII digits.) -/
def isDigitChar (c : Char) : Bool :=
  48 ≤ c.toNat && c.toNat ≤ 57

/-- Decimal value of a digit run, as computed by Python `int(...)`. -/
def digitsToNat (l : List Char) : Nat :=
  l.foldl (fun a c => a * 10 + (c.toNat - 48)) 0

/-- Embedding of `re.match(r"^(\d+)-", name)` followed by `int(match.group(1))`:
a non-empty leading digit run immediately followed by a hyphen parses to its
decimal value; otherwise no match. -/
def parseLeadingNumber (l : List Char) : Option Nat :=
  match l.takeWhile isDigitChar, l.dropWhile isDigitChar with
  | [], _ => none
  | _ :: _, '-' :: _ => some (digitsToNat (l.takeWhile isDigitChar))
  | _, _ => none

/-- A directory inside the artifact store root: its name and its markdown
files (name, content).  Plain files inside the store root are omitted from
the model, matching the `d.is_dir()` filters in `file_manager.py`. -/
structure SpecDir where
  name : String
  files : List (String × String)
  deriving DecidableEq

/-- The artifact store root (`specs/`): `none` when the directory does not
exist, otherwise the list of contained directories in iteration order. -/
abbrev Store := Option (List SpecDir)

/-- Embedding of `get_next_spec_number` from `file_manager.py`. -/
def get_next_spec_number (store : Store) : Nat :=
  match store with
  | none => 1
  | some dirs =>
    if dirs.isEmpty then 1
    else
      match dirs.filterMap (fun d => parseLeadingNumber d.name.data) with
      | [] => 1
      | n :: ns => ns.foldl Nat.max n + 1

/-- The `get_spec_number` key of `find_latest_spec`: leading integer of a
directory name, defaulting to `0` when `^(\d+)-` does not match. -/
def get_spec_number (name : String) : Nat :=
  (parseLeadingNumber name.data).getD 0

/-- Embedding of `find_latest_spec` from `file_manager.py`:
`max(existing_specs, key=get_spec_number)` keeps the first directory whose
key is maximal (Python `max` replaces the current best only on strictly
greater keys). -/
def find_latest_spec (store : Store) : Option SpecDir :=
  match store with
  | none => none
  | some [] => none
  | some (d :: ds) =>
    some (ds.foldl
      (fun best x => if get_spec_number best.name < get_spec_number x.name then x else best) d)

/-- Embedding of the f-string `f"{spec_number:03d}"`. -/
def pad3 (n : Nat) : String :=
  (if n < 10 then "00" else if n < 100 then "0" else "") ++ toString n

/-- Embedding of `create_spec_directory` from `file_manager.py`: ensures the
store root exists (`specs_dir.mkdir(parents=True, exist_ok=True)`), computes
the next number and the slug, creates `{number:03d}-{slug}` (`exist_ok`),
and returns the directory name, the number and the updated store. -/
def create_spec_directory (feature_name : String) (store : Store) :
    String × Nat × Store :=
  let dirs := store.getD []
  let spec_number := get_next_spec_number (some dirs)
  let slug := slugify feature_name
  let dir_name := pad3 spec_number ++ "-" ++ slug
  let dirs2 :=
    if dirs.any (fun d => d.name == dir_name) then dirs
    else dirs ++ [⟨dir_name, []⟩]
  (dir_name, spec_number, some dirs2)

/-- Read a file of a directory (`Path.read_text` after an `exists()` check). -/
def fileGet (files : List (String × String)) (name : String) : Option String :=
  (files.find? (fun f => f.1 == name)).map (fun f => f.2)

/-- Overwrite-or-create a file inside a directory's file list
(`Path.write_text`: unconditional overwrite, last writer wins). -/
def setFile (files : List (String × String)) (name content : String) :
    List (String × String) :=
  if files.any (fun f => f.1 == name) then
    files.map (fun f => if f.1 == name then (name, content) else f)
  else files ++ [(name, content)]

/-- Embedding of `save_markdown` from `file_manager.py`: creates parent
directories as needed and overwrites the file unconditionally. -/
def save_markdown (store : Store) (dirName fileName content : String) : Store :=
  let dirs := store.getD []
  if dirs.any (fun d => d.name == dirName) then
    some (dirs.map (fun d =>
      if d.name == dirName then ⟨d.name, setFile d.files fileName content⟩ else d))
  else some (dirs ++ [⟨dirName, [(fileName, content)]⟩])

end SpecGraph

namespace SpecGraph

/-! ## JSON values and a model of `json.loads` -/

/-- JSON values as produced by `json.loads` (numbers restricted to the
integers: no claim involves floating point, which is outside a shallow
embedding). -/
inductive Json where
  | null
  | bool (b : Bool)
  | num (n : Int)
  | str (s : String)
  | arr (elems : List Json)
  | obj (fields : List (String × Json))

/-- Python `dict` lookup on the decoded object fields: the last binding of a
duplicated key wins, as in a `dict` built by `json.loads`. -/
def jsonGet (fields : List (String × Json)) (key : String) : Option Json :=
  fields.foldl (fun acc kv => if kv.1 == key then some kv.2 else acc) none

/-- Python truthiness of a decoded JSON value (`bool(x)`). -/
def jsonTruthy : Json → Bool
  | Json.null => false
  | Json.bool b => b
  | Json.num n => n != 0
  | Json.str s => !s.isEmpty
  | Json.arr xs => !xs.isEmpty
  | Json.obj kvs => !kvs.isEmpty

/-- JSON insignificant whitespace. -/
def jsonWs (c : Char) : Bool :=
  c == ' ' || c == '\t' || c == '\n' || c == '\r'

/-- Skip JSON insignificant whitespace. -/
def skipWs (l : List Char) : List Char :=
  l.dropWhile jsonWs

/-- JSON string escapes.  `\uXXXX` escapes are outside the modelled fragment
(no claim exercises them); on them the model parser fails. -/
def escChar : Char → Option Char
  | '"' => some '"'
  | '\\' => some '\\'
  | '/' => some '/'
  | 'b' => some (Char.ofNat 8)
  | 'f' => some (Char.ofNat 12)
  | 'n' => some '\n'
  | 'r' => some '\r'
  | 't' => some '\t'
  | _ => none

/-- Parse the body of a JSON string after the opening quote; returns the
decoded characters and the remainder after the closing quote.  Raw control
characters are invalid, as in `json.loads` strict mode. -/
def parseStringBody : List Char → Option (List Char × List Char)
  | [] => none
  | '"' :: rest => some ([], rest)
  | '\\' :: e :: rest =>
    match escChar e with
    | some c => (parseStringBody rest).map (fun p => (c :: p.1, p.2))
    | none => none
  | c :: rest =>
    if c.toNat < 32 then none
    else (parseStringBody rest).map (fun p => (c :: p.1, p.2))

/-- Parse a JSON integer token (optional minus, digit run, no leading zeros).
Fractions and exponents are floating point and outside the modelled
fragment: the model parser fails on them. -/
def parseIntTok (l : List Char) : Option (Int × List Char) :=
  let core : List Char → Option (Int × List Char) := fun m =>
    match m.takeWhile isDigitChar with
    | [] => none
    | d :: rest_ds =>
      if d == '0' && !rest_ds.isEmpty then none
      else
        match m.dropWhile isDigitChar with
        | e :: r =>
          if e == '.' || e == 'e' || e == 'E' then none
          else some ((digitsToNat (d :: rest_ds) : Int), e :: r)
        | [] => some ((digitsToNat (d :: rest_ds) : Int), [])
  match l with
  | '-' :: m => (core m).map (fun p => (-p.1, p.2))
  | _ => core l

mutual

/-- Recursive-descent JSON value parser (fuel-indexed), modelling the
grammar accepted by `json.loads` on the integer fragment. -/
def parseValue : Nat → List Char → Option (Json × List Char)
  | 0, _ => none
  | fuel + 1, l =>
    match skipWs l with
    | '{' :: rest =>
      (match skipWs rest with
       | '}' :: r2 => some (Json.obj [], r2)
       | _ => (parseObjItems fuel rest).map (fun p => (Json.obj p.1, p.2)))
    | '[' :: rest =>
      (match skipWs rest with
       | ']' :: r2 => some (Json.arr [], r2)
       | _ => (parseArrItems fuel rest).map (fun p => (Json.arr p.1, p.2)))
    | '"' :: rest => (parseStringBody rest).map (fun p => (Json.str (String.mk p.1), p.2))
    | 't' :: 'r' :: 'u' :: 'e' :: rest => some (Json.bool true, rest)
    | 'f' :: 'a' :: 'l' :: 's' :: 'e' :: rest => some (Json.bool false, rest)
    | 'n' :: 'u' :: 'l' :: 'l' :: rest => some (Json.null, rest)
    | other => (parseIntTok other).map (fun p => (Json.num p.1, p.2))

/-- Parse the comma-separated items of a non-empty JSON array up to `]`. -/
def parseArrItems : Nat → List Char → Option (List Json × List Char)
  | 0, _ => none
  | fuel + 1, l =>
    match parseValue fuel l with
    | none => none
    | some (v, r) =>
      match skipWs r with
      | ',' :: r2 => (parseArrItems fuel r2).map (fun p => (v :: p.1, p.2))
      | ']' :: r2 => some ([v], r2)
      | _ => none

/-- Parse the comma-separated members of a non-empty JSON object up to `}`. -/
def parseObjItems : Nat → List Char → Option (List (String × Json) × List Char)
  | 0, _ => none
  | fuel + 1, l =>
    match skipWs l with
    | '"' :: rest =>
      (match parseStringBody rest with
       | none => none
       | some (k, r1) =>
         match skipWs r1 with
         | ':' :: r2 =>
           (match parseValue fuel r2 with
            | none => none
            | some (v, r3) =>
              match skipWs r3 with
              | ',' :: r4 => (parseObjItems fuel r4).map (fun p => ((String.mk k, v) :: p.1, p.2))
              | '}' :: r4 => some ([(String.mk k, v)], r4)
              | _ => none)
         | _ => none)
    | _ => none

end

/-- Model of `json.loads` on character lists: one JSON value, possibly
surrounded by whitespace, consuming the whole input; `none` models
`json.JSONDecodeError`. -/
def jsonLoadsL (l : List Char) : Option Json :=
  match parseValue (2 * l.length + 2) l with
  | some (v, r) => if (skipWs r).isEmpty then some v else none
  | none => none

end SpecGraph

namespace SpecGraph

/-! ## Python string primitives used by `clarify.py` -/

/-- Search for `sub` in a character list starting at running index `i`;
first occurrence wins. -/
def findSubAux (sub : List Char) : List Char → Nat → Option Nat
  | [], i => if sub.isEmpty then some i else none
  | c :: t, i => if sub.isPrefixOf (c :: t) then some i else findSubAux sub t (i + 1)

/-- Embedding of Python `l.find(sub, start)`: lowest index of an occurrence
at or after `start`, or `-1`. -/
def pyFind (l sub : List Char) (start : Nat) : Int :=
  match findSubAux sub (l.drop start) start with
  | some i => (i : Int)
  | none => -1

/-- Embedding of Python `sub in l` (substring containment). -/
def pyContains (l sub : List Char) : Bool :=
  pyFind l sub 0 != -1

/-- Embedding of the Python slice `l[a:b]` for a non-negative start and a
possibly negative end (`b = -1` means up to the last character excluded),
exactly the two shapes used by `analyze_and_generate_questions`. -/
def pySlice (l : List Char) (a : Nat) (b : Int) : List Char :=
  let e : Nat := if b < 0 then ((l.length : Int) + b).toNat else b.toNat
  (l.take e).drop a

/-- The bare code fence delimiter. -/
def fence3 : List Char := "```".data

/-- The json code fence opener. -/
def fenceJson : List Char := "```json".data

/-- The markdown code fence opener stripped by `update_specification`. -/
def fenceMarkdown : List Char := "```markdown".data

/-! ## Clarify pipeline (`workflows/clarify.py`) -/

/-- The opaque Model Gateway (spec section 2), modelled as one response
function per pipeline call site: each field is the composition of the
Anthropic client call in the corresponding step with the prompt template of
`prompts/`, applied to the data that step feeds into the template.  The
claims quantify over the gateway, so every possible response text is
covered. -/
structure Gateway where
  specifyResponse : String → String
  planResponse : String → String → String
  tasksResponse : String → String → String
  analyzeResponse : String → String
  updateResponse : String → List (Int × Json × String) → String

/-- The `ClarifyState` TypedDict of `clarify.py`.  `questions` holds the raw
decoded value assigned by `questions_data.get("questions", [])` (the code
does not enforce that it is a list); `spec_path` is the directory name. -/
structure ClarifyState where
  spec_path : Option String
  specification : String
  questions : Option Json
  answers : Option (List (Int × String))
  updated_spec : String
  error : Option String

/-- A partial state update as returned by a LangGraph node: `none` fields
are absent from the returned dict, `some v` fields overwrite the state. -/
structure ClarifyUpdate where
  spec_path : Option (Option String) := none
  specification : Option String := none
  questions : Option (Option Json) := none
  answers : Option (Option (List (Int × String))) := none
  updated_spec : Option String := none
  error : Option (Option String) := none

/-- LangGraph state merge: returned keys overwrite, absent keys persist. -/
def applyClarifyUpdate (s : ClarifyState) (u : ClarifyUpdate) : ClarifyState where
  spec_path := u.spec_path.getD s.spec_path
  specification := u.specification.getD s.specification
  questions := u.questions.getD s.questions
  answers := u.answers.getD s.answers
  updated_spec := u.updated_spec.getD s.updated_spec
  error := u.error.getD s.error

/-- Python truthiness of `state.get("answers")` (`None` and `{}` are falsy). -/
def answersTruthy : Option (List (Int × String)) → Bool
  | none => false
  | some l => !l.isEmpty

/-- Python truthiness of `state.get("questions")`. -/
def questionsTruthy : Option Json → Bool
  | none => false
  | some j => jsonTruthy j

/-- Embedding of `load_specification` from `clarify.py`: find the latest
spec directory, require `specification.md`, load it.  (The `except` branch
around `read_text` is not modelled: reads from the store model always
succeed.) -/
def Clarify.load_specification (store : Store) : ClarifyUpdate :=
  match find_latest_spec store with
  | none => { error := some (some "No specifications found. Run 'acpctl specify' first.") }
  | some d =>
    match fileGet d.files "specification.md" with
    | none =>
      let msg := "Specification file not found at " ++ d.name ++
        "/specification.md. Run 'acpctl specify' first."
      { error := some (some msg) }
    | some text =>
      { spec_path := some (some d.name), specification := some text, error := some none }

/-- The fence-extraction block of `analyze_and_generate_questions`: a
```json fence is searched first, then a bare ``` fence, else the whole
response is treated as raw JSON.  `find` returning `-1` for a missing
closing fence flows into the slice exactly as in Python. -/
def extractJsonPayload (response_text : List Char) : List Char :=
  if pyContains response_text fenceJson then
    let json_start := (pyFind response_text fenceJson 0 + 7).toNat
    let json_end := pyFind response_text fence3 json_start
    pyStrip (pySlice response_text json_start json_end)
  else if pyContains response_text fence3 then
    let json_start := (pyFind response_text fence3 0 + 3).toNat
    let json_end := pyFind response_text fence3 json_start
    pyStrip (pySlice response_text json_start json_end)
  else response_text

/-- Embedding of `analyze_and_generate_questions` from `clarify.py`.  The
result `none` models an uncaught Python exception: when the decoded value
is not an object, `questions_data.get` raises `AttributeError`, which the
`except (json.JSONDecodeError, KeyError)` clause does not catch.  A decode
failure is caught and becomes the state error (a `ParseError`). -/
def Clarify.analyze_and_generate_questions (gw : Gateway) (s : ClarifyState) :
    Option ClarifyUpdate :=
  if s.error.isSome then some {}
  else
    let response_text := (gw.analyzeResponse s.specification).data
    match jsonLoadsL (extractJsonPayload response_text) with
    | none => some { error := some (some "Failed to parse questions from Claude response") }
    | some (Json.obj kvs) =>
      some { questions := some (some ((jsonGet kvs "questions").getD (Json.arr []))) }
    | some _ => none

/-- Python `dict[int, str]` lookup for the Answer Map. -/
def alistGet (answers : List (Int × String)) (i : Int) : Option String :=
  (answers.find? (fun kv => kv.1 == i)).map (fun kv => kv.2)

/-- One iteration of the Q&A loop of `update_specification` on a decoded
question `q`: outer `none` models an uncaught exception (`q` not a dict or
`q["id"]`/`q["question"]` missing raise `TypeError`/`KeyError`); inner
`none` means the question is dropped because its id is not a key of the
Answer Map (a non-integer id is never a key of the int-keyed map). -/
def qaPairOf (answers : List (Int × String)) (q : Json) :
    Option (Option (Int × Json × String)) :=
  match q with
  | Json.obj kvs =>
    (match jsonGet kvs "id" with
     | none => none
     | some (Json.num i) =>
       (match alistGet answers i with
        | some a =>
          (match jsonGet kvs "question" with
           | none => none
           | some qv => some (some (i, qv, a)))
        | none => some none)
     | some _ => some none)
  | _ => none

/-- The Q&A pair list built by `update_specification`, in question order. -/
def buildQaPairs (answers : List (Int × String)) : List Json → Option (List (Int × Json × String))
  | [] => some []
  | q :: qs =>
    match qaPairOf answers q with
    | none => none
    | some none => buildQaPairs answers qs
    | some (some p) => (buildQaPairs answers qs).map (fun ps => p :: ps)

/-- The code-fence stripping at the end of `update_specification`: remove a
leading ```markdown or bare ``` opener and, if then present, a trailing
```; finally `strip()` surrounding whitespace. -/
def stripMarkdownFence (l : List Char) : List Char :=
  let l1 :=
    if fenceMarkdown.isPrefixOf l then
      let t := l.drop 11
      if fence3.isSuffixOf t then t.take (t.length - 3) else t
    else if fence3.isPrefixOf l then
      let t := l.drop 3
      if fence3.isSuffixOf t then t.take (t.length - 3) else t
    else l
  pyStrip l1

/-- Embedding of `update_specification` from `clarify.py`: skip on error or
falsy answers; build Q&A pairs from the decoded questions; fail with a
`ValidationError` when no pair was built; otherwise call the gateway and
strip an optional code fence.  `none` models an uncaught exception
(iterating a non-list `questions` or a malformed question dict). -/
def Clarify.update_specification (gw : Gateway) (s : ClarifyState) :
    Option ClarifyUpdate :=
  if s.error.isSome || !answersTruthy s.answers then some {}
  else
    match s.questions with
    | some (Json.arr qs) =>
      (match buildQaPairs (s.answers.getD []) qs with
       | none => none
       | some qa_pairs =>
         if qa_pairs.isEmpty then
           some { error := some (some "No answers provided to update specification") }
         else
           some { updated_spec := some (String.mk
             (stripMarkdownFence (gw.updateResponse s.specification qa_pairs).data)) })
    | _ => none

/-- Embedding of `save_specification` from `clarify.py`: skip on error, else
overwrite `specification.md` in the loaded spec directory.  `none` models
the uncaught `TypeError` of `None / "specification.md"` (unreachable
through the graph). -/
def Clarify.save_specification (s : ClarifyState) (store : Store) :
    Option (ClarifyUpdate × Store) :=
  if s.error.isSome then some ({}, store)
  else
    match s.spec_path with
    | none => none
    | some p => some ({}, save_markdown store p "specification.md" s.updated_spec)

/-- The LangGraph `END` sentinel. -/
def ENDNode : String := "__end__"

/-- Embedding of `should_continue_after_load` from `clarify.py`. -/
def should_continue_after_load (s : ClarifyState) : String :=
  if s.error.isSome then ENDNode else "analyze"

/-- Embedding of `should_continue_after_analyze` from `clarify.py`. -/
def should_continue_after_analyze (s : ClarifyState) : String :=
  if s.error.isSome then ENDNode
  else if !questionsTruthy s.questions then ENDNode
  else if answersTruthy s.answers then "update"
  else ENDNode

/-- Embedding of `should_continue_after_update` from `clarify.py`. -/
def should_continue_after_update (s : ClarifyState) : String :=
  if s.error.isSome then ENDNode else "save"

/-- Execution of the clarify graph from the `update → save` conditional
edge onward.  A `none` state models an uncaught Python exception; the store
component is the filesystem at that point. -/
def clarifyAfterUpdate (s : ClarifyState) (store : Store) :
    Option ClarifyState × Store :=
  if should_continue_after_update s == "save" then
    match Clarify.save_specification s store with
    | none => (none, store)
    | some (u, store2) => (some (applyClarifyUpdate s u), store2)
  else (some s, store)

/-- Execution of the clarify graph from the `analyze → update` conditional
edge onward. -/
def clarifyAfterAnalyze (gw : Gateway) (s : ClarifyState) (store : Store) :
    Option ClarifyState × Store :=
  if should_continue_after_analyze s == "update" then
    match Clarify.update_specification gw s with
    | none => (none, store)
    | some u => clarifyAfterUpdate (applyClarifyUpdate s u) store
  else (some s, store)

/-- Execution of the clarify graph from the `load → analyze` conditional
edge onward. -/
def clarifyAfterLoad (gw : Gateway) (s : ClarifyState) (store : Store) :
    Option ClarifyState × Store :=
  if should_continue_after_load s == "analyze" then
    match Clarify.analyze_and_generate_questions gw s with
    | none => (none, store)
    | some u => clarifyAfterAnalyze gw (applyClarifyUpdate s u) store
  else (some s, store)

/-- The initial state built by `run_clarify`. -/
def initialClarifyState (answers : Option (List (Int × String))) : ClarifyState where
  spec_path := none
  specification := ""
  questions := none
  answers := answers
  updated_spec := ""
  error := none

/-- Embedding of `run_clarify` from `clarify.py`: build the graph of
`build_clarify_workflow` (`START → load`, then the three conditional edges,
then `save → END`) and invoke it on the initial state. -/
def run_clarify (gw : Gateway) (store : Store)
    (answers : Option (List (Int × String))) : Option ClarifyState × Store :=
  let s0 := initialClarifyState answers
  let s1 := applyClarifyUpdate s0 (Clarify.load_specification store)
  clarifyAfterLoad gw s1 store

end SpecGraph

namespace SpecGraph

/-! ## Specify pipeline (`workflows/specify.py`) -/

/-- The `SpecifyState` TypedDict of `specify.py` (`spec_path : Path` is
initialised to `Path()`; paths are modelled by directory-name strings). -/
structure SpecifyState where
  feature_description : String
  specification : String
  spec_path : String
  spec_number : Nat
  error : Option String

/-- Partial state update returned by a Specify node. -/
structure SpecifyUpdate where
  feature_description : Option String := none
  specification : Option String := none
  spec_path : Option String := none
  spec_number : Option Nat := none
  error : Option (Option String) := none

/-- LangGraph state merge for the Specify pipeline. -/
def applySpecifyUpdate (s : SpecifyState) (u : SpecifyUpdate) : SpecifyState where
  feature_description := u.feature_description.getD s.feature_description
  specification := u.specification.getD s.specification
  spec_path := u.spec_path.getD s.spec_path
  spec_number := u.spec_number.getD s.spec_number
  error := u.error.getD s.error

/-- Embedding of `analyze_input` from `specify.py`: strip the description,
reject it when empty or shorter than 10 characters. -/
def Specify.analyze_input (s : SpecifyState) : SpecifyUpdate :=
  let feature_desc := pyStrip s.feature_description.data
  if feature_desc.isEmpty then
    { error := some (some "Feature description cannot be empty") }
  else if feature_desc.length < 10 then
    { error := some (some "Feature description is too short (minimum 10 characters)") }
  else { error := some none }

/-- Embedding of `generate_specification` from `specify.py`. -/
def Specify.generate_specification (gw : Gateway) (s : SpecifyState) : SpecifyUpdate :=
  if s.error.isSome then {}
  else { specification := some (gw.specifyResponse s.feature_description) }

/-- Embedding of `save_specification` from `specify.py`: create a new spec
directory keyed by the raw feature description and write the generated text
as `specification.md`. -/
def Specify.save_specification (s : SpecifyState) (store : Store) :
    SpecifyUpdate × Store :=
  if s.error.isSome then ({}, store)
  else
    let r := create_spec_directory s.feature_description store
    let store2 := save_markdown r.2.2 r.1 "specification.md" s.specification
    ({ spec_path := some r.1, spec_number := some r.2.1 }, store2)

/-- Embedding of `should_continue` from `specify.py`. -/
def Specify.should_continue (s : SpecifyState) : String :=
  if s.error.isSome then ENDNode else "generate"

/-- Execution of the specify graph from the unconditional `generate → save`
edge onward. -/
def specifyAfterGenerate (s : SpecifyState) (store : Store) : SpecifyState × Store :=
  let r := Specify.save_specification s store
  (applySpecifyUpdate s r.1, r.2)

/-- Execution of the specify graph from the `analyze → generate`
conditional edge onward. -/
def specifyAfterAnalyze (gw : Gateway) (s : SpecifyState) (store : Store) :
    SpecifyState × Store :=
  if Specify.should_continue s == "generate" then
    specifyAfterGenerate (applySpecifyUpdate s (Specify.generate_specification gw s)) store
  else (s, store)

/-- The initial state built by `run_specify`. -/
def initialSpecifyState (feature_description : String) : SpecifyState where
  feature_description := feature_description
  specification := ""
  spec_path := ""
  spec_number := 0
  error := none

/-- Embedding of `run_specify` from `specify.py` over the graph built by
`build_specify_workflow`. -/
def run_specify (gw : Gateway) (store : Store) (feature_description : String) :
    SpecifyState × Store :=
  let s0 := initialSpecifyState feature_description
  let s1 := applySpecifyUpdate s0 (Specify.analyze_input s0)
  specifyAfterAnalyze gw s1 store

/-! ## Plan pipeline (`workflows/plan.py`) -/

/-- The `PlanState` TypedDict of `plan.py`. -/
structure PlanState where
  technical_constraints : String
  spec_path : Option String
  specification : String
  plan : String
  plan_file : Option String
  error : Option String

/-- Partial state update returned by a Plan node. -/
structure PlanUpdate where
  technical_constraints : Option String := none
  spec_path : Option (Option String) := none
  specification : Option String := none
  plan : Option String := none
  plan_file : Option (Option String) := none
  error : Option (Option String) := none

/-- LangGraph state merge for the Plan pipeline. -/
def applyPlanUpdate (s : PlanState) (u : PlanUpdate) : PlanState where
  technical_constraints := u.technical_constraints.getD s.technical_constraints
  spec_path := u.spec_path.getD s.spec_path
  specification := u.specification.getD s.specification
  plan := u.plan.getD s.plan
  plan_file := u.plan_file.getD s.plan_file
  error := u.error.getD s.error

/-- Embedding of `load_specification` from `plan.py` (identical to the
clarify load). -/
def Plan.load_specification (store : Store) : PlanUpdate :=
  match find_latest_spec store with
  | none => { error := some (some "No specifications found. Run 'acpctl specify' first.") }
  | some d =>
    match fileGet d.files "specification.md" with
    | none =>
      let msg := "Specification file not found at " ++ d.name ++
        "/specification.md. Run 'acpctl specify' first."
      { error := some (some msg) }
    | some text =>
      { spec_path := some (some d.name), specification := some text, error := some none }

/-- Embedding of `generate_plan` from `plan.py`. -/
def Plan.generate_plan (gw : Gateway) (s : PlanState) : PlanUpdate :=
  if s.error.isSome then {}
  else { plan := some (gw.planResponse s.specification s.technical_constraints) }

/-- Embedding of `save_plan` from `plan.py`: write `plan.md` into the spec
directory; `none` models the uncaught exception on a `None` spec_path
(unreachable through the graph). -/
def Plan.save_plan (s : PlanState) (store : Store) : Option (PlanUpdate × Store) :=
  if s.error.isSome then some ({}, store)
  else
    match s.spec_path with
    | none => none
    | some p =>
      some ({ plan_file := some (some (p ++ "/plan.md")) },
        save_markdown store p "plan.md" s.plan)

/-- Embedding of `should_continue` from `plan.py`. -/
def Plan.should_continue (s : PlanState) : String :=
  if s.error.isSome then ENDNode else "generate"

/-- Execution of the plan graph from the unconditional `generate → save`
edge onward. -/
def planAfterGenerate (s : PlanState) (store : Store) : Option PlanState × Store :=
  match Plan.save_plan s store with
  | none => (none, store)
  | some (u, store2) => (some (applyPlanUpdate s u), store2)

/-- Execution of the plan graph from the `load → generate` conditional edge
onward. -/
def planAfterLoad (gw : Gateway) (s : PlanState) (store : Store) :
    Option PlanState × Store :=
  if Plan.should_continue s == "generate" then
    planAfterGenerate (applyPlanUpdate s (Plan.generate_plan gw s)) store
  else (some s, store)

/-- The initial state built by `run_plan`. -/
def initialPlanState (technical_constraints : String) : PlanState where
  technical_constraints := technical_constraints
  spec_path := none
  specification := ""
  plan := ""
  plan_file := none
  error := none

/-- Embedding of `run_plan` from `plan.py` over the graph built by
`build_plan_workflow`. -/
def run_plan (gw : Gateway) (store : Store) (technical_constraints : String) :
    Option PlanState × Store :=
  let s0 := initialPlanState technical_constraints
  let s1 := applyPlanUpdate s0 (Plan.load_specification store)
  planAfterLoad gw s1 store

/-! ## Tasks pipeline (`workflows/tasks.py`) -/

/-- The `TasksState` TypedDict of `tasks.py`. -/
structure TasksState where
  spec_path : Option String
  specification : String
  plan : String
  tasks : String
  tasks_file : Option String
  error : Option String

/-- Partial state update returned by a Tasks node. -/
structure TasksUpdate where
  spec_path : Option (Option String) := none
  specification : Option String := none
  plan : Option String := none
  tasks : Option String := none
  tasks_file : Option (Option String) := none
  error : Option (Option String) := none

/-- LangGraph state merge for the Tasks pipeline. -/
def applyTasksUpdate (s : TasksState) (u : TasksUpdate) : TasksState where
  spec_path := u.spec_path.getD s.spec_path
  specification := u.specification.getD s.specification
  plan := u.plan.getD s.plan
  tasks := u.tasks.getD s.tasks
  tasks_file := u.tasks_file.getD s.tasks_file
  error := u.error.getD s.error

/-- Embedding of `load_plan` from `tasks.py`: requires `specification.md`
and `plan.md`, checked in that order (first failing check wins). -/
def Tasks.load_plan (store : Store) : TasksUpdate :=
  match find_latest_spec store with
  | none => { error := some (some "No specifications found. Run 'acpctl specify' first.") }
  | some d =>
    match fileGet d.files "specification.md" with
    | none =>
      let msg := "Specification file not found at " ++ d.name ++
        "/specification.md. Run 'acpctl specify' first."
      { error := some (some msg) }
    | some spec_text =>
      match fileGet d.files "plan.md" with
      | none =>
        let msg := "Plan file not found at " ++ d.name ++
          "/plan.md. Run 'acpctl plan' first."
        { error := some (some msg) }
      | some plan_text =>
        { spec_path := some (some d.name), specification := some spec_text,
          plan := some plan_text, error := some none }

/-- Embedding of `generate_tasks` from `tasks.py`. -/
def Tasks.generate_tasks (gw : Gateway) (s : TasksState) : TasksUpdate :=
  if s.error.isSome then {}
  else { tasks := some (gw.tasksResponse s.specification s.plan) }

/-- Embedding of `save_tasks` from `tasks.py`. -/
def Tasks.save_tasks (s : TasksState) (store : Store) : Option (TasksUpdate × Store) :=
  if s.error.isSome then some ({}, store)
  else
    match s.spec_path with
    | none => none
    | some p =>
      some ({ tasks_file := some (some (p ++ "/tasks.md")) },
        save_markdown store p "tasks.md" s.tasks)

/-- Embedding of `should_continue` from `tasks.py`. -/
def Tasks.should_continue (s : TasksState) : String :=
  if s.error.isSome then ENDNode else "generate"

/-- Execution of the tasks graph from the unconditional `generate → save`
edge onward. -/
def tasksAfterGenerate (s : TasksState) (store : Store) : Option TasksState × Store :=
  match Tasks.save_tasks s store with
  | none => (none, store)
  | some (u, store2) => (some (applyTasksUpdate s u), store2)

/-- Execution of the tasks graph from the `load → generate` conditional
edge onward. -/
def tasksAfterLoad (gw : Gateway) (s : TasksState) (store : Store) :
    Option TasksState × Store :=
  if Tasks.should_continue s == "generate" then
    tasksAfterGenerate (applyTasksUpdate s (Tasks.generate_tasks gw s)) store
  else (some s, store)

/-- The initial state built by `run_tasks`. -/
def initialTasksState : TasksState where
  spec_path := none
  specification := ""
  plan := ""
  tasks := ""
  tasks_file := none
  error := none

/-- Embedding of `run_tasks` from `tasks.py` over the graph built by
`build_tasks_workflow`. -/
def run_tasks (gw : Gateway) (store : Store) : Option TasksState × Store :=
  let s1 := applyTasksUpdate initialTasksState (Tasks.load_plan store)
  tasksAfterLoad gw s1 store

end SpecGraph

namespace SpecGraph

/-! ## Claim-level definitions -/

/-- The slug shape asserted by the spec for claim C2, stated in the spec's
own words: only `[a-z0-9-]` characters, at most 50 of them, no doubled
hyphen, no leading hyphen, no trailing hyphen. -/
def claimedSlugShape (l : List Char) : Prop :=
  (∀ c ∈ l, isSlugChar c = true) ∧ l.length ≤ 50 ∧ noTwoDashes l = true ∧
  l.head? ≠ some '-' ∧ l.getLast? ≠ some '-'

/-- Concrete input whose slug is cut by the 50-character truncation right
after a hyphen: 49 `a`s, a space, and a `b`. -/
def cexInput : String := "aaaaaaaaaaaaaaaaaaaaaaaaaaaaaaaaaaaaaaaaaaaaaaaaa b"

/-- Concrete store content for the numbering witness: leading integers 1,
3, 2 (numbers need not be zero-padded when parsing). -/
def demoDirs : List SpecDir := [⟨"001-a", []⟩, ⟨"3-b", []⟩, ⟨"2-c", []⟩]

/-- Concrete store content for the find-latest witness. -/
def demoLatest : List SpecDir := [⟨"001-a", []⟩, ⟨"003-c", []⟩, ⟨"002-b", []⟩]

/-- A well-formed Clarification Question as far as `update_specification`
reads it: an integer id and a question text (the further fields `category`,
`context`, `suggested_answer` are never read by the update step and are
omitted from the well-formed shape). -/
structure Question where
  id : Int
  question : String

/-- The decoded-JSON form of a well-formed question. -/
def questionJson (q : Question) : Json :=
  Json.obj [("id", Json.num q.id), ("question", Json.str q.question)]

/-- A gateway answering every call with the same response text. -/
def constGateway (r : String) : Gateway where
  specifyResponse := fun _ => r
  planResponse := fun _ _ => r
  tasksResponse := fun _ _ => r
  analyzeResponse := fun _ => r
  updateResponse := fun _ _ => r

/-- The two-question list of the claim instances (ids 1 and 2). -/
def qlist : List Question := [⟨1, "q1"⟩, ⟨2, "q2"⟩]

/-- Answer Map answering only question 1. -/
def ansYes : List (Int × String) := [(1, "yes")]

/-- Answer Map whose id matches no question. -/
def ansMiss : List (Int × String) := [(99, "x")]

/-- A clarify state as it stands when the analyze step runs: specification
loaded, answers supplied at invocation time. -/
def sLoaded : ClarifyState where
  spec_path := some "001-x"
  specification := "SPEC"
  questions := none
  answers := some [(1, "yes")]
  updated_spec := ""
  error := none

/-- A gateway response carrying an empty question list in a json fence. -/
def fencedEmptyQuestions : String := "```json\n\x7b\"questions\":[]\x7d\n```"

/-- A Specify state carrying an error, for the short-circuit witness. -/
def errSpecify : SpecifyState where
  feature_description := ""
  specification := ""
  spec_path := ""
  spec_number := 0
  error := some "boom"

/-- A Plan state carrying an error, for the short-circuit witness. -/
def errPlan : PlanState where
  technical_constraints := ""
  spec_path := none
  specification := ""
  plan := ""
  plan_file := none
  error := some "boom"

/-- A Tasks state carrying an error, for the short-circuit witness. -/
def errTasks : TasksState where
  spec_path := none
  specification := ""
  plan := ""
  tasks := ""
  tasks_file := none
  error := some "boom"

/-- A Clarify state carrying an error, for the short-circuit witness. -/
def errClarify : ClarifyState where
  spec_path := none
  specification := ""
  questions := none
  answers := some [(1, "a")]
  updated_spec := ""
  error := some "boom"

/-- A clarify state as it stands when the update step runs: specification
loaded, questions decoded, the given Answer Map supplied. -/
def stateWithQA (ans : List (Int × String)) : ClarifyState where
  spec_path := some "001-x"
  specification := "SPEC"
  questions := some (Json.arr (qlist.map questionJson))
  answers := some ans
  updated_spec := ""
  error := none

end SpecGraph

namespace SpecGraph

/-! ## List lemmas for the slugify pipeline -/

/-- Members of the collapsed list are members of the original list. -/
theorem mem_collapseHyphens {c : Char} :
    ∀ {l : List Char}, c ∈ collapseHyphens l → c ∈ l := by
  intro l
  induction l with
  | nil => simp [collapseHyphens]
  | cons a t ih =>
    cases t with
    | nil => simp [collapseHyphens]
    | cons b t2 =>
      intro h
      rw [collapseHyphens] at h
      by_cases hab : (a == '-' && b == '-') = true
      · rw [if_pos hab] at h
        exact List.mem_cons_of_mem a (ih h)
      · rw [if_neg hab] at h
        rcases List.mem_cons.mp h with h1 | h2
        · exact h1 ▸ List.mem_cons_self a _
        · exact List.mem_cons_of_mem a (ih h2)

/-- Members of `dropTrailing` are members of the original list. -/
theorem mem_dropTrailing {p : Char → Bool} {c : Char} :
    ∀ {l : List Char}, c ∈ dropTrailing p l → c ∈ l := by
  intro l
  induction l with
  | nil => simp [dropTrailing]
  | cons a t ih =>
    intro h
    rw [dropTrailing] at h
    by_cases hcond : ((dropTrailing p t).isEmpty && p a) = true
    · simp [hcond] at h
    · rw [if_neg hcond] at h
      rcases List.mem_cons.mp h with h1 | h2
      · exact h1 ▸ List.mem_cons_self a _
      · exact List.mem_cons_of_mem a (ih h2)

/-- The collapsed list keeps the head of the original list. -/
theorem head?_collapseHyphens :
    ∀ (l : List Char), (collapseHyphens l).head? = l.head? := by
  intro l
  cases l with
  | nil => rfl
  | cons a t =>
    cases t with
    | nil => rfl
    | cons b t2 =>
      rw [collapseHyphens]
      by_cases hab : (a == '-' && b == '-') = true
      · rw [if_pos hab, head?_collapseHyphens (b :: t2)]
        have ha : a = '-' := by
          have := (Bool.and_eq_true _ _).mp hab
          exact beq_iff_eq.mp this.1
        have hb : b = '-' := by
          have := (Bool.and_eq_true _ _).mp hab
          exact beq_iff_eq.mp this.2
        simp [ha, hb]
      · rw [if_neg hab]
        rfl

/-- A nonempty `dropTrailing` keeps the head of the original list. -/
theorem head?_dropTrailing {p : Char → Bool} {c : Char} :
    ∀ {l : List Char}, (dropTrailing p l).head? = some c → l.head? = some c := by
  intro l
  cases l with
  | nil => intro h; exact absurd h (by simp [dropTrailing])
  | cons a t =>
    intro h
    rw [dropTrailing] at h
    by_cases hcond : ((dropTrailing p t).isEmpty && p a) = true
    · rw [if_pos hcond] at h
      exact absurd h (by simp)
    · rw [if_neg hcond] at h
      simpa using h

/-- A nonempty `take` keeps the head of the original list. -/
theorem head?_take {c : Char} {n : Nat} :
    ∀ {l : List Char}, (l.take n).head? = some c → l.head? = some c := by
  intro l
  cases l with
  | nil => simp
  | cons a t =>
    cases n with
    | zero => simp
    | succ m => simp

/-- The head of a `dropWhile` result does not satisfy the predicate. -/
theorem head?_dropWhile_false {p : Char → Bool} {c : Char} :
    ∀ {l : List Char}, (l.dropWhile p).head? = some c → p c = false := by
  intro l
  induction l with
  | nil => simp
  | cons a t ih =>
    intro h
    rw [List.dropWhile_cons] at h
    by_cases hpa : p a = true
    · rw [if_pos hpa] at h
      exact ih h
    · rw [if_neg hpa] at h
      simp only [List.head?_cons, Option.some.injEq] at h
      rw [← h]
      exact Bool.eq_false_iff.mpr hpa

/-- The last element of `dropTrailing p` does not satisfy `p`. -/
theorem getLast?_dropTrailing_false {p : Char → Bool} {c : Char} :
    ∀ {l : List Char}, (dropTrailing p l).getLast? = some c → p c = false := by
  intro l
  induction l with
  | nil => simp [dropTrailing]
  | cons a t ih =>
    intro h
    rw [dropTrailing] at h
    by_cases hcond : ((dropTrailing p t).isEmpty && p a) = true
    · rw [if_pos hcond] at h
      exact absurd h (by simp)
    · rw [if_neg hcond] at h
      rcases hr : dropTrailing p t with _ | ⟨b, r⟩
      · rw [hr] at h
        simp only [List.getLast?_singleton, Option.some.injEq] at h
        rw [hr] at hcond
        simp only [List.isEmpty_nil, Bool.true_and] at hcond
        rw [← h]
        exact Bool.eq_false_iff.mpr hcond
      · rw [hr] at h
        rw [List.getLast?_cons_cons] at h
        apply ih
        rw [hr]
        exact h

end SpecGraph

namespace SpecGraph

/-- Unfolding of `noTwoDashes` on a cons in terms of the tail's head. -/
theorem noTwoDashes_cons_iff {c : Char} {l : List Char} :
    noTwoDashes (c :: l) = true ↔
      (∀ d, l.head? = some d → (c == '-' && d == '-') = false) ∧ noTwoDashes l = true := by
  cases l with
  | nil => simp [noTwoDashes]
  | cons b t =>
    rw [noTwoDashes]
    constructor
    · intro h
      have h2 := (Bool.and_eq_true _ _).mp h
      refine ⟨?_, h2.2⟩
      intro d hd
      simp only [List.head?_cons, Option.some.injEq] at hd
      subst hd
      cases hcb : (c == '-' && b == '-') with
      | false => rfl
      | true => rw [hcb] at h2; exact absurd h2.1 (by simp)
    · intro h
      apply (Bool.and_eq_true _ _).mpr
      refine ⟨?_, h.2⟩
      have hfalse := h.1 b (by simp)
      rw [hfalse]
      rfl

/-- The tail of a list without adjacent hyphens has no adjacent hyphens. -/
theorem noTwoDashes_tail {c : Char} {l : List Char}
    (h : noTwoDashes (c :: l) = true) : noTwoDashes l = true :=
  (noTwoDashes_cons_iff.mp h).2

/-- `collapseHyphens` leaves no two adjacent hyphens. -/
theorem noTwoDashes_collapseHyphens :
    ∀ (l : List Char), noTwoDashes (collapseHyphens l) = true := by
  intro l
  induction l with
  | nil => rfl
  | cons a t ih =>
    cases t with
    | nil => rfl
    | cons b t2 =>
      rw [collapseHyphens]
      by_cases hab : (a == '-' && b == '-') = true
      · rw [if_pos hab]
        exact ih
      · rw [if_neg hab]
        apply noTwoDashes_cons_iff.mpr
        refine ⟨?_, ih⟩
        intro d hd
        rw [head?_collapseHyphens (b :: t2)] at hd
        simp only [List.head?_cons, Option.some.injEq] at hd
        subst hd
        exact Bool.eq_false_iff.mpr hab

/-- `dropWhile` preserves the absence of adjacent hyphens. -/
theorem noTwoDashes_dropWhile {p : Char → Bool} :
    ∀ {l : List Char}, noTwoDashes l = true → noTwoDashes (l.dropWhile p) = true := by
  intro l
  induction l with
  | nil => simp
  | cons a t ih =>
    intro h
    rw [List.dropWhile_cons]
    by_cases hpa : p a = true
    · rw [if_pos hpa]
      exact ih (noTwoDashes_tail h)
    · rw [if_neg hpa]
      exact h

/-- `dropTrailing` preserves the absence of adjacent hyphens. -/
theorem noTwoDashes_dropTrailing {p : Char → Bool} :
    ∀ {l : List Char}, noTwoDashes l = true → noTwoDashes (dropTrailing p l) = true := by
  intro l
  induction l with
  | nil => intro h; exact h
  | cons a t ih =>
    intro h
    rw [dropTrailing]
    by_cases hcond : ((dropTrailing p t).isEmpty && p a) = true
    · rw [if_pos hcond]; rfl
    · rw [if_neg hcond]
      apply noTwoDashes_cons_iff.mpr
      refine ⟨?_, ih (noTwoDashes_tail h)⟩
      intro d hd
      have hd2 := head?_dropTrailing hd
      exact (noTwoDashes_cons_iff.mp h).1 d hd2

/-- `take` preserves the absence of adjacent hyphens. -/
theorem noTwoDashes_take {n : Nat} :
    ∀ {l : List Char}, noTwoDashes l = true → noTwoDashes (l.take n) = true := by
  induction n with
  | zero => intro l h; simp [noTwoDashes]
  | succ m ih =>
    intro l h
    cases l with
    | nil => simp [noTwoDashes]
    | cons a t =>
      rw [List.take_succ_cons]
      apply noTwoDashes_cons_iff.mpr
      refine ⟨?_, ih (noTwoDashes_tail h)⟩
      intro d hd
      exact (noTwoDashes_cons_iff.mp h).1 d (head?_take hd)

end SpecGraph

namespace SpecGraph

/-- A slug character is not uppercase, so `pyLower` fixes it. -/
theorem pyLower_eq_self_of_slugChar {c : Char} (h : isSlugChar c = true) :
    pyLower c = c := by
  simp only [isSlugChar, Bool.or_eq_true, Bool.and_eq_true, beq_iff_eq,
    decide_eq_true_eq] at h
  have hng : ¬((65 ≤ c.toNat && c.toNat ≤ 90) = true) := by
    simp only [Bool.and_eq_true, decide_eq_true_eq, not_and]
    omega
  rw [pyLower, if_neg hng]

/-- A slug character is neither whitespace nor underscore. -/
theorem not_spaceUnd_of_slugChar {c : Char} (h : isSlugChar c = true) :
    isSpaceUnd c = false := by
  simp only [isSlugChar, Bool.or_eq_true, Bool.and_eq_true, beq_iff_eq,
    decide_eq_true_eq] at h
  simp only [isSpaceUnd, pyIsSpace]
  simp only [Bool.or_eq_false_iff, Bool.and_eq_false_iff]
  simp only [beq_eq_false_iff_ne, ne_eq, decide_eq_false_iff_not, decide_eq_true_eq]
  omega

end SpecGraph

namespace SpecGraph

/-- Mapping a function that fixes every member is the identity. -/
theorem map_eq_self_of_fixes {f : Char → Char} :
    ∀ {l : List Char}, (∀ c ∈ l, f c = c) → l.map f = l := by
  intro l
  induction l with
  | nil => intro _; rfl
  | cons a t ih =>
    intro h
    rw [List.map_cons, h a (List.mem_cons_self a t), ih]
    intro c hc
    exact h c (List.mem_cons_of_mem a hc)

/-- `replaceSpaceRuns` is the identity when no member is whitespace or
underscore. -/
theorem replaceSpaceRuns_eq_self :
    ∀ {l : List Char}, (∀ c ∈ l, isSpaceUnd c = false) → replaceSpaceRuns l = l := by
  intro l
  induction l with
  | nil => intro _; rfl
  | cons a t ih =>
    intro h
    have ha := h a (List.mem_cons_self a t)
    cases t with
    | nil =>
      rw [replaceSpaceRuns, if_neg (by rw [ha]; simp)]
    | cons b t2 =>
      rw [replaceSpaceRuns]
      rw [if_neg (by rw [ha]; simp)]
      rw [if_neg (by rw [ha]; simp)]
      rw [ih (fun c hc => h c (List.mem_cons_of_mem a hc))]

/-- `collapseHyphens` is the identity on lists without adjacent hyphens. -/
theorem collapseHyphens_eq_self :
    ∀ {l : List Char}, noTwoDashes l = true → collapseHyphens l = l := by
  intro l
  induction l with
  | nil => intro _; rfl
  | cons a t ih =>
    intro h
    cases t with
    | nil => rfl
    | cons b t2 =>
      rw [collapseHyphens]
      have hab : (a == '-' && b == '-') = false := (noTwoDashes_cons_iff.mp h).1 b (by simp)
      rw [if_neg (by rw [hab]; simp)]
      rw [ih (noTwoDashes_tail h)]

/-- `dropWhile` is the identity when the head does not satisfy `p`. -/
theorem dropWhile_eq_self_of_head {p : Char → Bool} {l : List Char}
    (h : ∀ c, l.head? = some c → p c = false) : l.dropWhile p = l := by
  cases l with
  | nil => rfl
  | cons a t =>
    rw [List.dropWhile_cons, if_neg (by rw [h a (by simp)]; simp)]

/-- `dropTrailing` is the identity when the last element does not satisfy
`p`. -/
theorem dropTrailing_eq_self_of_getLast {p : Char → Bool} :
    ∀ {l : List Char}, (∀ c, l.getLast? = some c → p c = false) →
      dropTrailing p l = l := by
  intro l
  induction l with
  | nil => intro _; rfl
  | cons a t ih =>
    intro h
    rw [dropTrailing]
    cases t with
    | nil =>
      have ha := h a (by simp)
      simp only [dropTrailing, List.isEmpty_nil, Bool.true_and]
      rw [ha]
      simp
    | cons b t2 =>
      have ht : dropTrailing p (b :: t2) = b :: t2 := by
        apply ih
        intro c hc
        apply h
        rw [List.getLast?_cons_cons]
        exact hc
      rw [ht]
      simp

end SpecGraph

namespace SpecGraph

/-- Every character of the pre-truncation slug is a slug character. -/
theorem isSlugChar_of_mem_slugCore {l : List Char} {c : Char}
    (h : c ∈ slugCore l) : isSlugChar c = true := by
  rw [slugCore, pyStripBy] at h
  have h1 := mem_dropTrailing h
  have h2 := (List.dropWhile_sublist _).subset h1
  have h3 := mem_collapseHyphens h2
  exact List.of_mem_filter h3

/-- The pre-truncation slug has no two adjacent hyphens. -/
theorem noTwoDashes_slugCore (l : List Char) : noTwoDashes (slugCore l) = true := by
  rw [slugCore, pyStripBy]
  exact noTwoDashes_dropTrailing (noTwoDashes_dropWhile (noTwoDashes_collapseHyphens _))

/-- The pre-truncation slug does not start with a hyphen. -/
theorem head_slugCore_ne_dash {l : List Char} {c : Char}
    (h : (slugCore l).head? = some c) : c ≠ '-' := by
  rw [slugCore, pyStripBy] at h
  have h1 := head?_dropTrailing h
  have h2 := head?_dropWhile_false h1
  simpa using h2

/-- The pre-truncation slug does not end with a hyphen. -/
theorem getLast_slugCore_ne_dash {l : List Char} {c : Char}
    (h : (slugCore l).getLast? = some c) : c ≠ '-' := by
  rw [slugCore, pyStripBy] at h
  have h1 := getLast?_dropTrailing_false h
  simpa using h1

end SpecGraph

namespace SpecGraph

/-- C2 (amended part): the slug consists of at most 50 characters from
`[a-z0-9-]`, with no doubled hyphen and no leading hyphen; freedom from a
trailing hyphen holds whenever the slug before the `text[:50]` truncation
already fits in 50 characters. -/
theorem slugify_shape (s : String) :
    (∀ c ∈ (slugify s).data, isSlugChar c = true) ∧
    (slugify s).data.length ≤ 50 ∧
    noTwoDashes (slugify s).data = true ∧
    (slugify s).data.head? ≠ some '-' ∧
    ((slugCore s.data).length ≤ 50 → (slugify s).data.getLast? ≠ some '-') := by
  have hdata : (slugify s).data = (slugCore s.data).take 50 := rfl
  refine ⟨?_, ?_, ?_, ?_, ?_⟩
  · intro c hc
    rw [hdata] at hc
    exact isSlugChar_of_mem_slugCore ((List.take_sublist _ _).subset hc)
  · rw [hdata, List.length_take]
    exact min_le_left _ _
  · rw [hdata]
    exact noTwoDashes_take (noTwoDashes_slugCore _)
  · rw [hdata]
    intro hhead
    exact head_slugCore_ne_dash (head?_take hhead) rfl
  · intro hlen
    rw [hdata, List.take_of_length_le hlen]
    intro hlast
    exact getLast_slugCore_ne_dash hlast rfl

/-- Witness for `slugify_shape`: at the input `"My Feature"` the slug fits
in 50 characters, so the trailing-hyphen conclusion applies. -/
theorem slugify_shape_witness :
    (slugCore "My Feature".data).length ≤ 50 ∧
      (slugify "My Feature").data.getLast? ≠ some '-' :=
  ⟨by decide, (slugify_shape "My Feature").2.2.2.2 (by decide)⟩

/-- C2 (counterexample): at 49 `a`s, a space and a `b`, the claimed slug
shape fails — truncation to 50 characters leaves a trailing hyphen. -/
theorem slugify_shape_cex : ¬ claimedSlugShape (slugify cexInput).data := by
  rw [claimedSlugShape]
  decide

end SpecGraph

namespace SpecGraph

/-- C1 (amended): `slugify` is idempotent on every input whose slug does
not end with a hyphen (in particular whenever the slug fits the 50-char
truncation); a trailing hyphen left by truncation is stripped on
re-application. -/
theorem slugify_idempotent_of_no_trailing_hyphen (s : String)
    (h : (slugify s).data.getLast? ≠ some '-') :
    slugify (slugify s) = slugify s := by
  have hshape := slugify_shape s
  have hmem : ∀ c ∈ (slugify s).data, isSlugChar c = true := hshape.1
  have hlen : (slugify s).data.length ≤ 50 := hshape.2.1
  have hnd : noTwoDashes (slugify s).data = true := hshape.2.2.1
  have hhead : (slugify s).data.head? ≠ some '-' := hshape.2.2.2.1
  set t := (slugify s).data with ht
  have hcore : slugCore t = t := by
    rw [slugCore]
    rw [map_eq_self_of_fixes (fun c hc => pyLower_eq_self_of_slugChar (hmem c hc))]
    rw [replaceSpaceRuns_eq_self (fun c hc => not_spaceUnd_of_slugChar (hmem c hc))]
    rw [List.filter_eq_self.mpr hmem]
    rw [collapseHyphens_eq_self hnd]
    rw [pyStripBy]
    rw [dropWhile_eq_self_of_head (fun c hc => by
      apply beq_eq_false_iff_ne.mpr
      intro hcdash
      subst hcdash
      exact hhead hc)]
    rw [dropTrailing_eq_self_of_getLast (fun c hc => by
      apply beq_eq_false_iff_ne.mpr
      intro hcdash
      subst hcdash
      exact h hc)]
  show String.mk (slugifyL t) = slugify s
  rw [slugifyL, hcore, List.take_of_length_le hlen]

/-- Witness for `slugify_idempotent_of_no_trailing_hyphen` at the input
`"hello world"`. -/
theorem slugify_idempotent_witness :
    (slugify "hello world").data.getLast? ≠ some '-' ∧
      slugify (slugify "hello world") = slugify "hello world" :=
  ⟨by decide, slugify_idempotent_of_no_trailing_hyphen "hello world" (by decide)⟩

/-- C1 (counterexample): slugify is not idempotent — at 49 `a`s, a space
and a `b`, the first slug ends with a truncation-produced hyphen, which a
second application strips. -/
theorem slugify_not_idempotent_cex :
    slugify (slugify cexInput) ≠ slugify cexInput := by
  decide

end SpecGraph

namespace SpecGraph

/-! ## Maximum lemmas for the directory scans -/

/-- `Nat.max` picks one of its arguments. -/
theorem nat_max_choice (n m : Nat) : Nat.max n m = n ∨ Nat.max n m = m := by
  rcases Nat.le_total n m with h | h
  · exact Or.inr (Nat.max_eq_right h)
  · exact Or.inl (Nat.max_eq_left h)

/-- A `foldl Nat.max` result is one of the folded values. -/
theorem foldl_max_mem : ∀ (ns : List Nat) (n : Nat), ns.foldl Nat.max n ∈ n :: ns := by
  intro ns
  induction ns with
  | nil => intro n; simp
  | cons m ms ih =>
    intro n
    rw [List.foldl_cons]
    rcases List.mem_cons.mp (ih (Nat.max n m)) with h1 | h1
    · rw [h1]
      rcases nat_max_choice n m with h | h <;> rw [h] <;> simp
    · exact List.mem_cons_of_mem n (List.mem_cons_of_mem m h1)

/-- A `foldl Nat.max` result bounds the seed and every folded value. -/
theorem le_foldl_max :
    ∀ (ns : List Nat) (n : Nat),
      n ≤ ns.foldl Nat.max n ∧ ∀ x ∈ ns, x ≤ ns.foldl Nat.max n := by
  intro ns
  induction ns with
  | nil => intro n; exact ⟨Nat.le_refl n, by simp⟩
  | cons m ms ih =>
    intro n
    rw [List.foldl_cons]
    have hih := ih (Nat.max n m)
    have hn : n ≤ Nat.max n m := Nat.le_max_left n m
    have hm : m ≤ Nat.max n m := Nat.le_max_right n m
    refine ⟨Nat.le_trans hn hih.1, ?_⟩
    intro x hx
    rcases List.mem_cons.mp hx with rfl | h1
    · exact Nat.le_trans hm hih.1
    · exact hih.2 x h1

/-- The argmax fold of `find_latest_spec` returns a member of the scanned
directories. -/
theorem foldl_best_mem (key : SpecDir → Nat) :
    ∀ (ds : List SpecDir) (d : SpecDir),
      ds.foldl (fun best x => if key best < key x then x else best) d ∈ d :: ds := by
  intro ds
  induction ds with
  | nil => intro d; simp
  | cons a t ih =>
    intro d
    rw [List.foldl_cons]
    by_cases h : key d < key a
    · rw [if_pos h]
      rcases List.mem_cons.mp (ih a) with h1 | h1
      · rw [h1]
        simp
      · exact List.mem_cons_of_mem d (List.mem_cons_of_mem a h1)
    · rw [if_neg h]
      rcases List.mem_cons.mp (ih d) with h1 | h1
      · rw [h1]
        simp
      · exact List.mem_cons_of_mem d (List.mem_cons_of_mem a h1)

/-- The argmax fold of `find_latest_spec` has a maximal key among the seed
and the scanned directories. -/
theorem foldl_best_max (key : SpecDir → Nat) :
    ∀ (ds : List SpecDir) (d : SpecDir) (x : SpecDir), x ∈ d :: ds →
      key x ≤ key (ds.foldl (fun best y => if key best < key y then y else best) d) := by
  intro ds
  induction ds with
  | nil =>
    intro d x hx
    rcases List.mem_cons.mp hx with h1 | h1
    · rw [h1]
      exact Nat.le_refl _
    · exact absurd h1 (List.not_mem_nil x)
  | cons a t ih =>
    intro d x hx
    rw [List.foldl_cons]
    by_cases h : key d < key a
    · rw [if_pos h]
      rcases List.mem_cons.mp hx with h1 | h1
      · rw [h1]
        exact Nat.le_trans (Nat.le_of_lt h) (ih a a (List.mem_cons_self a t))
      · exact ih a x h1
    · rw [if_neg h]
      rcases List.mem_cons.mp hx with h1 | h1
      · rw [h1]
        exact ih d d (List.mem_cons_self d t)
      · rcases List.mem_cons.mp h1 with h2 | h2
        · rw [h2]
          exact Nat.le_trans (Nat.le_of_not_lt h) (ih d d (List.mem_cons_self d t))
        · exact ih d x (List.mem_cons_of_mem d h2)

end SpecGraph

namespace SpecGraph

/-- C3: on a store whose directories all carry a `^(\d+)-` prefix, the next
allocated number is the maximum of the leading integers plus one; on an
absent or empty store it is `1`; and `create_spec_directory` allocates
exactly `get_next_spec_number` of the store it was given (it first ensures
the root exists, which does not change the scan result). -/
theorem get_next_spec_number_spec :
    (∀ dirs : List SpecDir, dirs ≠ [] →
      (∀ d ∈ dirs, (parseLeadingNumber d.name.data).isSome = true) →
      ∃ M, M ∈ dirs.filterMap (fun d => parseLeadingNumber d.name.data) ∧
        (∀ k ∈ dirs.filterMap (fun d => parseLeadingNumber d.name.data), k ≤ M) ∧
        get_next_spec_number (some dirs) = M + 1) ∧
    get_next_spec_number none = 1 ∧
    get_next_spec_number (some []) = 1 ∧
    ∀ (name : String) (store : Store),
      (create_spec_directory name store).2.1 = get_next_spec_number store := by
  refine ⟨?_, rfl, rfl, ?_⟩
  · intro dirs hne hall
    rcases hnum : dirs.filterMap (fun d => parseLeadingNumber d.name.data) with _ | ⟨n, ns⟩
    · exfalso
      rcases dirs with _ | ⟨d0, rest⟩
      · exact hne rfl
      · have h0 := hall d0 (List.mem_cons_self d0 rest)
        have hnone := List.filterMap_eq_nil_iff.mp hnum d0 (List.mem_cons_self d0 rest)
        rw [hnone] at h0
        exact Bool.false_ne_true h0
    · refine ⟨ns.foldl Nat.max n, ?_, ?_, ?_⟩
      · rw [hnum]
        exact foldl_max_mem ns n
      · rw [hnum]
        intro k hk
        rcases List.mem_cons.mp hk with h1 | h1
        · rw [h1]
          exact (le_foldl_max ns n).1
        · exact (le_foldl_max ns n).2 k h1
      · have hie : dirs.isEmpty = false := List.isEmpty_eq_false.mpr hne
        simp only [get_next_spec_number, hie, Bool.false_eq_true, if_false, hnum]
  · intro name store
    rcases store with _ | dirs
    · rfl
    · rfl

/-- Witness for `get_next_spec_number_spec` on the store
`{001-a, 3-b, 2-c}`: all names parse and the allocation is max+1. -/
theorem get_next_spec_number_witness :
    (∀ d ∈ demoDirs, (parseLeadingNumber d.name.data).isSome = true) ∧
    (∃ M, M ∈ demoDirs.filterMap (fun d => parseLeadingNumber d.name.data) ∧
      (∀ k ∈ demoDirs.filterMap (fun d => parseLeadingNumber d.name.data), k ≤ M) ∧
      get_next_spec_number (some demoDirs) = M + 1) :=
  ⟨by decide, get_next_spec_number_spec.1 demoDirs (by decide) (by decide)⟩

/-- C7: `find_latest_spec` is `none` exactly on an absent or empty store;
a returned directory belongs to the store and its parsed leading integer
(defaulting to 0 for names without one) is maximal; and a name without a
leading integer parses as `0`. -/
theorem find_latest_spec_spec :
    (∀ store : Store, find_latest_spec store = none ↔ store = none ∨ store = some []) ∧
    (∀ (dirs : List SpecDir) (d : SpecDir), find_latest_spec (some dirs) = some d →
      d ∈ dirs ∧ ∀ x ∈ dirs, get_spec_number x.name ≤ get_spec_number d.name) ∧
    ∀ name : String, parseLeadingNumber name.data = none → get_spec_number name = 0 := by
  refine ⟨?_, ?_, ?_⟩
  · intro store
    rcases store with _ | dirs
    · simp [find_latest_spec]
    · rcases dirs with _ | ⟨d0, rest⟩
      · simp [find_latest_spec]
      · simp [find_latest_spec]
  · intro dirs d hfind
    rcases dirs with _ | ⟨d0, rest⟩
    · exact absurd hfind (by simp [find_latest_spec])
    · simp only [find_latest_spec, Option.some.injEq] at hfind
      have hb := foldl_best_mem (fun x => get_spec_number x.name) rest d0
      have hm := foldl_best_max (fun x => get_spec_number x.name) rest d0
      rw [hfind] at hb hm
      exact ⟨hb, fun x hx => hm x hx⟩
  · intro name h
    rw [get_spec_number, h]
    rfl

/-- Witness for `find_latest_spec_spec` on the store
`{001-a, 003-c, 002-b}`: the directory `003-c` is found, is a member, and
has the maximal leading integer. -/
theorem find_latest_spec_witness :
    find_latest_spec (some demoLatest) = some ⟨"003-c", []⟩ ∧
    (⟨"003-c", []⟩ : SpecDir) ∈ demoLatest ∧
    ∀ x ∈ demoLatest, get_spec_number x.name ≤ get_spec_number "003-c" := by
  have h := find_latest_spec_spec.2.1 demoLatest ⟨"003-c", []⟩ rfl
  exact ⟨rfl, h.1, h.2⟩

end SpecGraph

namespace SpecGraph

/-- C8: the Specify validate step (`analyze_input`) errors exactly when the
stripped description is empty or shorter than 10 characters; in particular
it rejects `""`, `"   "` and `"short"` and accepts a 10-character
description (returning the explicit `error: None`). -/
theorem analyze_input_spec :
    (∀ s : SpecifyState,
      ((∃ m, (Specify.analyze_input s).error = some (some m)) ↔
        (pyStrip s.feature_description.data).isEmpty = true ∨
        (pyStrip s.feature_description.data).length < 10)) ∧
    (∃ m, (Specify.analyze_input (initialSpecifyState "")).error = some (some m)) ∧
    (∃ m, (Specify.analyze_input (initialSpecifyState "   ")).error = some (some m)) ∧
    (∃ m, (Specify.analyze_input (initialSpecifyState "short")).error = some (some m)) ∧
    (Specify.analyze_input (initialSpecifyState "abcdefghij")).error = some none := by
  refine ⟨?_, ⟨"Feature description cannot be empty", rfl⟩,
    ⟨"Feature description cannot be empty", rfl⟩,
    ⟨"Feature description is too short (minimum 10 characters)", rfl⟩, rfl⟩
  intro s
  simp only [Specify.analyze_input]
  by_cases h1 : (pyStrip s.feature_description.data).isEmpty = true
  · rw [if_pos h1]
    exact iff_of_true ⟨_, rfl⟩ (Or.inl h1)
  · rw [if_neg h1]
    by_cases h2 : (pyStrip s.feature_description.data).length < 10
    · rw [if_pos h2]
      exact iff_of_true ⟨_, rfl⟩ (Or.inr h2)
    · rw [if_neg h2]
      apply iff_of_false
      · rintro ⟨m, hm⟩
        exact Option.noConfusion (Option.some.inj hm)
      · rintro (h | h)
        · exact h1 h
        · exact h2 h

end SpecGraph

namespace SpecGraph

/-- On a well-formed question, the Q&A loop body builds a pair exactly when
the id is a key of the Answer Map. -/
theorem qaPairOf_questionJson (ans : List (Int × String)) (q : Question) :
    qaPairOf ans (questionJson q) =
      some ((alistGet ans q.id).map (fun a => (q.id, Json.str q.question, a))) := by
  have hid : jsonGet [("id", Json.num q.id), ("question", Json.str q.question)] "id"
      = some (Json.num q.id) := rfl
  have hq : jsonGet [("id", Json.num q.id), ("question", Json.str q.question)] "question"
      = some (Json.str q.question) := rfl
  rw [questionJson, qaPairOf, hid, hq]
  rcases h : alistGet ans q.id with _ | a <;> simp [h]

/-- On a well-formed question list, the Q&A pair list contains exactly one
pair for each question whose id is a key of the Answer Map, in question
order. -/
theorem buildQaPairs_questionJson (ans : List (Int × String)) :
    ∀ qs : List Question,
      buildQaPairs ans (qs.map questionJson) =
        some (qs.filterMap
          (fun q => (alistGet ans q.id).map (fun a => (q.id, Json.str q.question, a)))) := by
  intro qs
  induction qs with
  | nil => rfl
  | cons q qt ih =>
    rw [List.map_cons, buildQaPairs, qaPairOf_questionJson, List.filterMap_cons]
    rcases h : alistGet ans q.id with _ | a
    · simp [h, ih]
    · simp [h, ih]

end SpecGraph

namespace SpecGraph

/-- C4: with answers supplied (non-empty Answer Map) and a well-formed
question list, the update step builds exactly one Q&A pair per question
whose id is a key of the Answer Map, in question order, and sets a
`ValidationError` exactly when that pair list is empty. -/
theorem update_specification_spec (gw : Gateway) (s : ClarifyState)
    (qs : List Question) (ans : List (Int × String))
    (herr : s.error = none) (hans : s.answers = some ans) (hne : ans ≠ [])
    (hq : s.questions = some (Json.arr (qs.map questionJson))) :
    buildQaPairs ans (qs.map questionJson) =
      some (qs.filterMap
        (fun q => (alistGet ans q.id).map (fun a => (q.id, Json.str q.question, a)))) ∧
    ((∃ m u, Clarify.update_specification gw s = some u ∧ u.error = some (some m)) ↔
      qs.filterMap
        (fun q => (alistGet ans q.id).map (fun a => (q.id, Json.str q.question, a))) = []) := by
  refine ⟨buildQaPairs_questionJson ans qs, ?_⟩
  have hisS : s.error.isSome = false := by rw [herr]; rfl
  have hT : answersTruthy s.answers = true := by
    rw [hans, answersTruthy, List.isEmpty_eq_false.mpr hne]
    rfl
  have hgetD : s.answers.getD [] = ans := by rw [hans]; rfl
  rw [Clarify.update_specification, hisS, hT]
  simp only [Bool.false_or, Bool.not_true]
  rw [if_neg Bool.false_ne_true, hq]
  simp only []
  rw [hgetD, buildQaPairs_questionJson ans qs]
  simp only []
  rcases hp : qs.filterMap
      (fun q => (alistGet ans q.id).map (fun a => (q.id, Json.str q.question, a))) with _ | ⟨p, ps⟩
  · rw [hp, if_pos List.isEmpty_nil]
    exact iff_of_true ⟨"No answers provided to update specification",
      { error := some (some "No answers provided to update specification") }, rfl, rfl⟩ rfl
  · rw [hp, if_neg (by simp)]
    apply iff_of_false
    · rintro ⟨m, u, hu, hue⟩
      obtain rfl := Option.some.inj hu
      exact Option.noConfusion hue
    · exact List.cons_ne_nil p ps

end SpecGraph

namespace SpecGraph

/-- Witness for `update_specification_spec`: against questions with ids 1
and 2, the Answer Map `{1: "yes"}` yields exactly the one pair for id 1 and
no error, and the Answer Map `{99: "x"}` yields the `ValidationError`. -/
theorem update_specification_witness :
    (buildQaPairs ansYes (qlist.map questionJson) = some [(1, Json.str "q1", "yes")] ∧
      ¬ ∃ m u, Clarify.update_specification (constGateway "OUT") (stateWithQA ansYes) = some u ∧
        u.error = some (some m)) ∧
    (∃ m u, Clarify.update_specification (constGateway "OUT") (stateWithQA ansMiss) = some u ∧
      u.error = some (some m)) := by
  have h1 := update_specification_spec (constGateway "OUT") (stateWithQA ansYes) qlist ansYes
    rfl rfl (by decide) rfl
  have h2 := update_specification_spec (constGateway "OUT") (stateWithQA ansMiss) qlist ansMiss
    rfl rfl (by decide) rfl
  refine ⟨⟨?_, ?_⟩, ?_⟩
  · rw [h1.1]
    rfl
  · intro hex
    have hnil := h1.2.mp hex
    have hred : qlist.filterMap
        (fun q => (alistGet ansYes q.id).map (fun a => (q.id, Json.str q.question, a)))
        = [(1, Json.str "q1", "yes")] := rfl
    rw [hred] at hnil
    exact List.cons_ne_nil _ _ hnil
  · apply h2.2.mpr
    rfl

end SpecGraph

namespace SpecGraph

/-- C5: the analyze step extracts the payload by searching a ```json fence
first, then a bare ``` fence, else treats the whole response as raw JSON;
a decode failure of the extracted payload is caught and becomes the state
error (ParseError); concretely, `"no json here"` yields the ParseError and
a ```json fence around an empty `questions` array yields the empty question
list, no error, and an `END` route that bypasses the update step. -/
theorem analyze_extraction_spec :
    (∀ r : List Char, pyContains r fenceJson = false → pyContains r fence3 = false →
      extractJsonPayload r = r) ∧
    (∀ r : List Char, pyContains r fenceJson = true →
      extractJsonPayload r =
        pyStrip (pySlice r ((pyFind r fenceJson 0 + 7).toNat)
          (pyFind r fence3 ((pyFind r fenceJson 0 + 7).toNat)))) ∧
    (∀ r : List Char, pyContains r fenceJson = false → pyContains r fence3 = true →
      extractJsonPayload r =
        pyStrip (pySlice r ((pyFind r fence3 0 + 3).toNat)
          (pyFind r fence3 ((pyFind r fence3 0 + 3).toNat)))) ∧
    (∀ (gw : Gateway) (s : ClarifyState), s.error = none →
      jsonLoadsL (extractJsonPayload (gw.analyzeResponse s.specification).data) = none →
      Clarify.analyze_and_generate_questions gw s =
        some { error := some (some "Failed to parse questions from Claude response") }) ∧
    (Clarify.analyze_and_generate_questions (constGateway "no json here") sLoaded =
      some { error := some (some "Failed to parse questions from Claude response") }) ∧
    (Clarify.analyze_and_generate_questions (constGateway fencedEmptyQuestions) sLoaded =
      some { questions := some (some (Json.arr [])) }) ∧
    (should_continue_after_analyze (applyClarifyUpdate sLoaded
      { questions := some (some (Json.arr [])) }) = ENDNode) ∧
    (applyClarifyUpdate sLoaded { questions := some (some (Json.arr [])) }).error = none := by
  refine ⟨?_, ?_, ?_, ?_, rfl, rfl, rfl, rfl⟩
  · intro r h1 h2
    rw [extractJsonPayload, if_neg (by rw [h1]; exact Bool.false_ne_true),
      if_neg (by rw [h2]; exact Bool.false_ne_true)]
  · intro r h1
    rw [extractJsonPayload, if_pos h1]
  · intro r h1 h2
    rw [extractJsonPayload, if_neg (by rw [h1]; exact Bool.false_ne_true), if_pos h2]
  · intro gw s hserr hparse
    have hb : s.error.isSome = false := by rw [hserr]; rfl
    rw [Clarify.analyze_and_generate_questions, hb]
    rw [if_neg Bool.false_ne_true]
    simp only []
    rw [hparse]

/-- Witness for `analyze_extraction_spec`: the parse-failure implication at
the gateway response `"no json here"` on a loaded state. -/
theorem analyze_extraction_witness :
    jsonLoadsL (extractJsonPayload
      ((constGateway "no json here").analyzeResponse sLoaded.specification).data) = none ∧
    Clarify.analyze_and_generate_questions (constGateway "no json here") sLoaded =
      some { error := some (some "Failed to parse questions from Claude response") } :=
  ⟨rfl, analyze_extraction_spec.2.2.2.1 (constGateway "no json here") sLoaded rfl rfl⟩

end SpecGraph

namespace SpecGraph

/-- C10: when the decoded gateway response is a JSON object without a
`questions` key, the analyze step sets no error and stores the default
empty question list, and the pipeline routes to `END` (terminating
successfully as if no clarification were needed). -/
theorem analyze_missing_questions_key (gw : Gateway) (s : ClarifyState)
    (kvs : List (String × Json)) (hserr : s.error = none)
    (hparse : jsonLoadsL (extractJsonPayload
      (gw.analyzeResponse s.specification).data) = some (Json.obj kvs))
    (hkey : jsonGet kvs "questions" = none) :
    Clarify.analyze_and_generate_questions gw s =
      some { questions := some (some (Json.arr [])) } ∧
    should_continue_after_analyze
      (applyClarifyUpdate s { questions := some (some (Json.arr [])) }) = ENDNode ∧
    (applyClarifyUpdate s { questions := some (some (Json.arr [])) }).error = none := by
  have hb : s.error.isSome = false := by rw [hserr]; rfl
  have happ : (applyClarifyUpdate s { questions := some (some (Json.arr [])) }).error
      = none := by
    simp [applyClarifyUpdate, hserr]
  refine ⟨?_, ?_, happ⟩
  · rw [Clarify.analyze_and_generate_questions, hb]
    rw [if_neg Bool.false_ne_true]
    simp only []
    rw [hparse]
    simp only []
    rw [hkey]
    rfl
  · rw [should_continue_after_analyze]
    rw [show (applyClarifyUpdate s
      { questions := some (some (Json.arr [])) }).error.isSome = false from by
        rw [happ]; rfl]
    rw [if_neg Bool.false_ne_true]
    rw [show questionsTruthy (applyClarifyUpdate s
      { questions := some (some (Json.arr [])) }).questions = false from rfl]
    rfl

/-- Witness for `analyze_missing_questions_key` at the raw response
`"\x7b\x7d"` (an empty JSON object). -/
theorem analyze_missing_questions_key_witness :
    jsonLoadsL (extractJsonPayload
      ((constGateway "\x7b\x7d").analyzeResponse sLoaded.specification).data)
      = some (Json.obj []) ∧
    jsonGet [] "questions" = none ∧
    Clarify.analyze_and_generate_questions (constGateway "\x7b\x7d") sLoaded =
      some { questions := some (some (Json.arr [])) } :=
  ⟨rfl, rfl,
    (analyze_missing_questions_key (constGateway "\x7b\x7d") sLoaded [] rfl rfl rfl).1⟩

end SpecGraph

namespace SpecGraph

/-- C6: in all four pipelines, every step that can follow an error-setting
step returns the empty update on an error-carrying state (adding no state
fields and leaving the store untouched), and from every conditional-edge
boundary onward an error-carrying state flows to the terminal state
unchanged, carrying the same error value outward. -/
theorem error_short_circuit (gw : Gateway) (store : Store) (e : String) :
    (∀ s : SpecifyState, s.error = some e →
      Specify.generate_specification gw s = {} ∧
      Specify.save_specification s store = ({}, store) ∧
      specifyAfterAnalyze gw s store = (s, store) ∧
      specifyAfterGenerate s store = (s, store)) ∧
    (∀ s : PlanState, s.error = some e →
      Plan.generate_plan gw s = {} ∧
      Plan.save_plan s store = some ({}, store) ∧
      planAfterLoad gw s store = (some s, store) ∧
      planAfterGenerate s store = (some s, store)) ∧
    (∀ s : TasksState, s.error = some e →
      Tasks.generate_tasks gw s = {} ∧
      Tasks.save_tasks s store = some ({}, store) ∧
      tasksAfterLoad gw s store = (some s, store) ∧
      tasksAfterGenerate s store = (some s, store)) ∧
    (∀ s : ClarifyState, s.error = some e →
      Clarify.analyze_and_generate_questions gw s = some {} ∧
      Clarify.update_specification gw s = some {} ∧
      Clarify.save_specification s store = some ({}, store) ∧
      clarifyAfterLoad gw s store = (some s, store) ∧
      clarifyAfterAnalyze gw s store = (some s, store) ∧
      clarifyAfterUpdate s store = (some s, store)) := by
  refine ⟨?_, ?_, ?_, ?_⟩
  · intro s hs
    have hb : s.error.isSome = true := by rw [hs]; rfl
    have hgen : Specify.generate_specification gw s = {} := by
      rw [Specify.generate_specification, hb, if_pos rfl]
    have hsave : Specify.save_specification s store = ({}, store) := by
      rw [Specify.save_specification, hb, if_pos rfl]
    have hroute : Specify.should_continue s = ENDNode := by
      rw [Specify.should_continue, hb, if_pos rfl]
    have hgenTail : specifyAfterGenerate s store = (s, store) := by
      rw [specifyAfterGenerate, hsave]
      rfl
    refine ⟨hgen, hsave, ?_, hgenTail⟩
    rw [specifyAfterAnalyze, hroute, if_neg (by decide)]
  · intro s hs
    have hb : s.error.isSome = true := by rw [hs]; rfl
    have hgen : Plan.generate_plan gw s = {} := by
      rw [Plan.generate_plan, hb, if_pos rfl]
    have hsave : Plan.save_plan s store = some ({}, store) := by
      rw [Plan.save_plan, hb, if_pos rfl]
    have hroute : Plan.should_continue s = ENDNode := by
      rw [Plan.should_continue, hb, if_pos rfl]
    have hgenTail : planAfterGenerate s store = (some s, store) := by
      rw [planAfterGenerate, hsave]
      rfl
    refine ⟨hgen, hsave, ?_, hgenTail⟩
    rw [planAfterLoad, hroute, if_neg (by decide)]
  · intro s hs
    have hb : s.error.isSome = true := by rw [hs]; rfl
    have hgen : Tasks.generate_tasks gw s = {} := by
      rw [Tasks.generate_tasks, hb, if_pos rfl]
    have hsave : Tasks.save_tasks s store = some ({}, store) := by
      rw [Tasks.save_tasks, hb, if_pos rfl]
    have hroute : Tasks.should_continue s = ENDNode := by
      rw [Tasks.should_continue, hb, if_pos rfl]
    have hgenTail : tasksAfterGenerate s store = (some s, store) := by
      rw [tasksAfterGenerate, hsave]
      rfl
    refine ⟨hgen, hsave, ?_, hgenTail⟩
    rw [tasksAfterLoad, hroute, if_neg (by decide)]
  · intro s hs
    have hb : s.error.isSome = true := by rw [hs]; rfl
    have han : Clarify.analyze_and_generate_questions gw s = some {} := by
      rw [Clarify.analyze_and_generate_questions, hb, if_pos rfl]
    have hup : Clarify.update_specification gw s = some {} := by
      rw [Clarify.update_specification, hb]
      simp only [Bool.true_or, if_true]
    have hsv : Clarify.save_specification s store = some ({}, store) := by
      rw [Clarify.save_specification, hb, if_pos rfl]
    have hr1 : should_continue_after_load s = ENDNode := by
      rw [should_continue_after_load, hb, if_pos rfl]
    have hr2 : should_continue_after_analyze s = ENDNode := by
      rw [should_continue_after_analyze, hb, if_pos rfl]
    have hr3 : should_continue_after_update s = ENDNode := by
      rw [should_continue_after_update, hb, if_pos rfl]
    refine ⟨han, hup, hsv, ?_, ?_, ?_⟩
    · rw [clarifyAfterLoad, hr1, if_neg (by decide)]
    · rw [clarifyAfterAnalyze, hr2, if_neg (by decide)]
    · rw [clarifyAfterUpdate, hr3, if_neg (by decide)]

end SpecGraph

namespace SpecGraph

/-- Witness for `error_short_circuit` at concrete error-carrying states of
all four pipelines. -/
theorem error_short_circuit_witness :
    (Specify.generate_specification (constGateway "R") errSpecify = {} ∧
      specifyAfterAnalyze (constGateway "R") errSpecify none = (errSpecify, none)) ∧
    (Plan.generate_plan (constGateway "R") errPlan = {} ∧
      planAfterLoad (constGateway "R") errPlan none = (some errPlan, none)) ∧
    (Tasks.generate_tasks (constGateway "R") errTasks = {} ∧
      tasksAfterLoad (constGateway "R") errTasks none = (some errTasks, none)) ∧
    (Clarify.update_specification (constGateway "R") errClarify = some {} ∧
      clarifyAfterLoad (constGateway "R") errClarify none = (some errClarify, none)) := by
  have h := error_short_circuit (constGateway "R") none "boom"
  have h1 := h.1 errSpecify rfl
  have h2 := h.2.1 errPlan rfl
  have h3 := h.2.2.1 errTasks rfl
  have h4 := h.2.2.2 errClarify rfl
  exact ⟨⟨h1.1, h1.2.2.1⟩, ⟨h2.1, h2.2.2.1⟩, ⟨h3.1, h3.2.2.1⟩,
    ⟨h4.2.1, h4.2.2.2.1⟩⟩

end SpecGraph

namespace SpecGraph

/-- The load step never returns an `answers` field. -/
theorem load_answers_none (store : Store) :
    (Clarify.load_specification store).answers = none := by
  rw [Clarify.load_specification]
  rcases hf : find_latest_spec store with _ | d
  · rfl
  · simp only []
    rcases hg : fileGet d.files "specification.md" with _ | t <;> simp only []

/-- The analyze step never returns an `answers` field. -/
theorem analyze_answers_none (gw : Gateway) (s : ClarifyState) (u : ClarifyUpdate)
    (h : Clarify.analyze_and_generate_questions gw s = some u) : u.answers = none := by
  rw [Clarify.analyze_and_generate_questions] at h
  by_cases hb : s.error.isSome = true
  · rw [if_pos hb] at h
    obtain rfl := Option.some.inj h
    rfl
  · rw [if_neg hb] at h
    simp only [] at h
    rcases hj : jsonLoadsL (extractJsonPayload (gw.analyzeResponse s.specification).data)
      with _ | j
    · rw [hj] at h
      obtain rfl := Option.some.inj h
      rfl
    · rw [hj] at h
      rcases j with _ | b | n | st | xs | kvs
      · exact Option.noConfusion h
      · exact Option.noConfusion h
      · exact Option.noConfusion h
      · exact Option.noConfusion h
      · exact Option.noConfusion h
      · obtain rfl := Option.some.inj h
        rfl

/-- With no answers in the state, the analyze conditional edge always
routes to `END`, leaving state and store untouched. -/
theorem clarifyAfterAnalyze_answers_none (gw : Gateway) (s : ClarifyState)
    (store : Store) (h : s.answers = none) :
    clarifyAfterAnalyze gw s store = (some s, store) := by
  have hroute : should_continue_after_analyze s = ENDNode := by
    rw [should_continue_after_analyze]
    by_cases hb : s.error.isSome = true
    · rw [if_pos hb]
    · rw [if_neg hb]
      by_cases hq : (!questionsTruthy s.questions) = true
      · rw [if_pos hq]
      · rw [if_neg hq, h]
        rfl
  rw [clarifyAfterAnalyze, hroute, if_neg (by decide)]

/-- C9: a Clarify invocation without an Answer Map (phase 1) leaves the
artifact store exactly as it was, whatever the load and analyze outcomes —
the update and save nodes are unreachable and no other node writes. -/
theorem clarify_phase1_writes_nothing (gw : Gateway) (store : Store) :
    (run_clarify gw store none).2 = store := by
  rw [run_clarify]
  set s1 := applyClarifyUpdate (initialClarifyState none) (Clarify.load_specification store)
    with hs1
  have hans : s1.answers = none := by
    rw [hs1, applyClarifyUpdate]
    simp only [load_answers_none store]
    rfl
  rw [clarifyAfterLoad]
  by_cases hroute : should_continue_after_load s1 == "analyze"
  · rw [if_pos hroute]
    rcases ha : Clarify.analyze_and_generate_questions gw s1 with _ | u
    · rfl
    · have hans2 : (applyClarifyUpdate s1 u).answers = none := by
        rw [applyClarifyUpdate]
        simp only [analyze_answers_none gw s1 u ha]
        rw [hans]
        rfl
      show (clarifyAfterAnalyze gw (applyClarifyUpdate s1 u) store).2 = store
      rw [clarifyAfterAnalyze_answers_none gw _ store hans2]
  · rw [if_neg hroute]

end SpecGraph
